import Mathlib

/-!
Verification development for the elastic-benchmarks MOM daemon.

We shallowly embed the parts of the code base that the checked properties
speak about:

* `Value` / `Dict` — a model of Python values and (insertion-ordered)
  dictionaries as used on the RPC wire and in the monitor records.
* `dict_recursive_update` — `mom/util/dict_itertools.py`.
* `collect_push` — the statistics-history push of `Monitor.collect`
  (`mom/monitor/__init__.py`).
* `process_message` / `send_receive_message` — the response envelope of
  `mom/communication/guest_server.py` and its consumption in
  `mom/communication/guest_client.py`.
* `notify_process` — `MessageNotify.process` (`mom/communication/messages.py`).
* `update_memory` / `logged_run_step` — `DynamicResourceControl` of
  `cloudexp/guest/application/control.py`.
* `host_policy_init` / `do_controls` — `mom/host_policy/__init__.py`.

Machine floats are modelled by `ℚ`; the float NaN sentinel `InvalidMemory`
is modelled by `Option ℚ` with `none` standing for NaN.
-/

namespace MomSpec

/-- A Python value as it appears in monitor records and RPC payloads:
booleans, numbers, strings, `None`, or a dictionary.  Dictionaries are
insertion-ordered association lists, as in CPython. -/
inductive Value : Type where
  | bool : Bool → Value
  | num : ℚ → Value
  | str : String → Value
  | null : Value
  | dict : List (String × Value) → Value
deriving Repr

/-- A Python dictionary with string keys: an insertion-ordered association
list. -/
abbrev Dict : Type := List (String × Value)

/-- `d.get(k, None)`: first binding of `k`, if any. -/
def dictGet : Dict → String → Option Value
  | [], _ => none
  | (k1, v1) :: rest, k => if k1 = k then some v1 else dictGet rest k

/-- `d[k] = v`: replace the value at `k` in place if present (keeping its
position, as CPython does), otherwise append the new binding at the end. -/
def dictSet : Dict → String → Value → Dict
  | [], k, v => [(k, v)]
  | (k1, v1) :: rest, k, v =>
    if k1 = k then (k1, v) :: rest else (k1, v1) :: dictSet rest k v

/-- `d.update(other)`: shallow update, setting every binding of `other`
left to right. -/
def dictUpdateShallow (d : Dict) : Dict → Dict
  | [] => d
  | (k, v) :: rest => dictUpdateShallow (dictSet d k v) rest

/-- The keys of a dictionary, in order. -/
def dictKeys (d : Dict) : List String := d.map Prod.fst

@[simp] theorem dictGet_nil (k : String) : dictGet [] k = none := rfl

@[simp] theorem dictGet_cons (k1 k : String) (v1 : Value) (rest : Dict) :
    dictGet ((k1, v1) :: rest) k = if k1 = k then some v1 else dictGet rest k := rfl

theorem dictGet_set_self (d : Dict) (k : String) (v : Value) :
    dictGet (dictSet d k v) k = some v := by
  induction d with
  | nil => simp [dictSet]
  | cons hd rest ih =>
    obtain ⟨k1, v1⟩ := hd
    by_cases h : k1 = k <;> simp [dictSet, h, ih]

theorem dictGet_set_ne (d : Dict) (k k1 : String) (v : Value) (h : k1 ≠ k) :
    dictGet (dictSet d k1 v) k = dictGet d k := by
  induction d with
  | nil => simp [dictSet, h]
  | cons hd rest ih =>
    obtain ⟨k2, v2⟩ := hd
    by_cases h2 : k2 = k1
    · subst h2
      simp [dictSet, h]
    · by_cases h3 : k2 = k <;> simp [dictSet, h2, h3, Ne.symm h, ih]

theorem dictSet_set_same (d : Dict) (k : String) (v w : Value) :
    dictSet (dictSet d k v) k w = dictSet d k w := by
  induction d with
  | nil => simp [dictSet]
  | cons hd rest ih =>
    obtain ⟨k1, v1⟩ := hd
    by_cases h : k1 = k <;> simp [dictSet, h, ih]

theorem dictSet_get_same (d : Dict) (k : String) (v : Value)
    (h : dictGet d k = some v) : dictSet d k v = d := by
  induction d with
  | nil => simp [dictGet] at h
  | cons hd rest ih =>
    obtain ⟨k1, v1⟩ := hd
    by_cases h1 : k1 = k
    · simp [dictGet, h1] at h
      simp [dictSet, h1, h]
    · simp [dictGet, h1] at h
      simp [dictSet, h1, ih h]

@[simp] theorem dictKeys_cons (k1 : String) (v1 : Value) (rest : Dict) :
    dictKeys ((k1, v1) :: rest) = k1 :: dictKeys rest := rfl

theorem dictGet_eq_none_of_not_mem (d : Dict) (k : String)
    (h : k ∉ dictKeys d) : dictGet d k = none := by
  induction d with
  | nil => rfl
  | cons hd rest ih =>
    obtain ⟨k1, v1⟩ := hd
    rw [dictKeys_cons, List.mem_cons, not_or] at h
    simp [dictGet, Ne.symm h.1, ih h.2]

/-! ### `dict_recursive_update` (`mom/util/dict_itertools.py`, lines 115-127)

The Python function iterates over the input dictionary; when both the
existing value and the new value are dictionaries it recurses into them,
otherwise it overwrites the binding.  `merge_value` is the body of the
loop for one binding. -/

mutual

/-- One step of `dict_recursive_update`: the new value stored at a key,
given the value already present (if any).  Two dictionaries are merged
recursively; anything else is replaced by the input value. -/
def merge_value (sourcev : Option Value) (v : Value) : Value :=
  match sourcev, v with
  | some (Value.dict sd), Value.dict vd => Value.dict (dict_recursive_update sd vd)
  | _, _ => v
termination_by sizeOf v

/-- `dict_recursive_update(source, input_dict)` from
`mom/util/dict_itertools.py`: for every binding of the input, merge it
into the source. -/
def dict_recursive_update (source : Dict) (input_dict : Dict) : Dict :=
  match input_dict with
  | [] => source
  | (k, v) :: rest =>
    dict_recursive_update (dictSet source k (merge_value (dictGet source k) v)) rest
termination_by sizeOf input_dict

end

/-- The merge loop of `Monitor.collect` (`mom/monitor/__init__.py`,
lines 84-88): starting from an empty record, apply
`dict_recursive_update` to every collector output in configuration
order. -/
def collect_merged (outputs : List Dict) : Dict :=
  outputs.foldl dict_recursive_update []

theorem dict_recursive_update_nil (source : Dict) :
    dict_recursive_update source [] = source := by
  rw [dict_recursive_update]

theorem dict_recursive_update_cons (source : Dict) (k : String) (v : Value) (rest : Dict) :
    dict_recursive_update source ((k, v) :: rest)
      = dict_recursive_update (dictSet source k (merge_value (dictGet source k) v)) rest := by
  rw [dict_recursive_update]

/-- Lookup after merging: a key present in the input dictionary maps to
its merged value; a key absent from the input keeps the source value.
The input is assumed to have no duplicate keys, as a Python dict cannot
have any. -/
theorem dictGet_recursive_update (input_dict : Dict) (source : Dict) (k : String)
    (hnd : (dictKeys input_dict).Nodup) :
    dictGet (dict_recursive_update source input_dict) k
      = match dictGet input_dict k with
        | some v => some (merge_value (dictGet source k) v)
        | none => dictGet source k := by
  induction input_dict generalizing source with
  | nil => simp [dict_recursive_update_nil]
  | cons hd rest ih =>
    obtain ⟨k1, v1⟩ := hd
    rw [dictKeys_cons, List.nodup_cons] at hnd
    rw [dict_recursive_update_cons]
    by_cases h : k1 = k
    · subst h
      have hrest : dictGet rest k1 = none :=
        dictGet_eq_none_of_not_mem rest k1 hnd.1
      rw [ih _ hnd.2]
      simp [hrest, dictGet_set_self]
    · rw [ih _ hnd.2]
      simp [h, dictGet_set_ne _ _ _ _ h]

/-! ### Statistics history of `Monitor.collect` (`mom/monitor/__init__.py`,
lines 93-96)

After merging, `collect` appends the record to the `statistics` deque and
pops the oldest entry when the length exceeds `sample-history-length`. -/

/-- One `collect()` push: `statistics.append(data)` followed by
`popleft()` when the length exceeds `hist_len`. -/
def collect_push {α : Type} (hist_len : ℕ) (statistics : List α) (data : α) : List α :=
  let appended := statistics ++ [data]
  if hist_len < appended.length then appended.tail else appended

/-- The statistics deque after a sequence of `collect()` calls, starting
from the empty deque. -/
def collect_history {α : Type} (hist_len : ℕ) (records : List α) : List α :=
  records.foldl (collect_push hist_len) []

theorem collect_push_length_le {α : Type} (hist_len : ℕ) (statistics : List α) (data : α)
    (h : statistics.length ≤ hist_len) :
    (collect_push hist_len statistics data).length ≤ hist_len := by
  unfold collect_push
  by_cases hlt : hist_len < (statistics ++ [data]).length
  · rw [if_pos hlt]
    simp at hlt ⊢
    omega
  · rw [if_neg hlt]
    simp at hlt ⊢
    omega

theorem collect_history_aux {α : Type} (hist_len : ℕ) (records : List α)
    (statistics : List α) (h : statistics.length ≤ hist_len) :
    records.foldl (collect_push hist_len) statistics
      = (statistics ++ records).drop (statistics.length + records.length - hist_len) := by
  induction records generalizing statistics with
  | nil =>
    simp only [List.foldl_nil, List.append_nil, List.length_nil]
    rw [Nat.add_zero, Nat.sub_eq_zero_of_le h, List.drop_zero]
  | cons r rest ih =>
    rw [List.foldl_cons]
    by_cases hlt : hist_len < (statistics ++ [r]).length
    · -- the deque was full: the push pops the oldest element
      have hpush : collect_push hist_len statistics r = (statistics ++ [r]).drop 1 := by
        unfold collect_push
        rw [if_pos hlt, ← List.drop_one]
      simp only [List.length_append, List.length_singleton] at hlt
      have hplen : ((statistics ++ [r]).drop 1).length ≤ hist_len := by
        rw [List.length_drop]
        simp
        omega
      have hsplit : (statistics ++ [r]).drop 1 ++ rest = ((statistics ++ [r]) ++ rest).drop 1 :=
        (List.drop_append_of_le_length (by simp)).symm
      rw [hpush, ih _ hplen, List.length_drop, hsplit]
      have hidx : (statistics ++ [r]).length - 1 + rest.length - hist_len = rest.length := by
        simp
        omega
      rw [hidx, List.drop_drop, List.append_assoc, List.singleton_append]
      congr 1
      simp
      omega
    · -- the deque still has room: plain append
      have hpush : collect_push hist_len statistics r = statistics ++ [r] := by
        unfold collect_push
        rw [if_neg hlt]
      simp only [List.length_append, List.length_singleton] at hlt
      rw [hpush, ih _ (by simp; omega), List.append_assoc, List.singleton_append]
      congr 1
      simp
      omega

/-! ### Memory values (`mom/util/memory_type.py`)

Machine floats become `ℚ`; the NaN sentinel `InvalidMemory` becomes the
`none` of `Option ℚ`. -/

/-- `is_valid_mem`: a number that is neither NaN nor infinite.  In the
model only the NaN sentinel occurs, as `none`. -/
def is_valid_mem : Option ℚ → Bool
  | some _ => true
  | none => false

/-- `is_memory_close(mem1, mem2)` with the default tolerance `eps = 1`
used by `DynamicResourceControl`: both values are valid and within one
unit of each other. -/
def is_memory_close (m1 m2 : Option ℚ) : Bool :=
  match m1, m2 with
  | some a, some b => decide (a + 1 > b) && decide (b + 1 > a)
  | _, _ => false

/-- Python `x > y` where `y` may be the NaN sentinel: any comparison with
NaN is false. -/
def mem_gt (m : ℚ) (o : Option ℚ) : Bool :=
  match o with
  | some a => decide (a < m)
  | none => false

/-- Python `max(0, memory_alloc - available)` where `available` may be the
NaN sentinel: CPython `max` keeps its first argument when the comparison
with NaN is false, so the result is `0` in that case. -/
def first_diff (memory_alloc : ℚ) (available : Option ℚ) : ℚ :=
  match available with
  | some a => max 0 (memory_alloc - a)
  | none => 0

/-- Python `min(target, available)` where `available` may be the NaN
sentinel: CPython `min` keeps its first argument when the comparison with
NaN is false. -/
def min_mem (t : ℚ) (o : Option ℚ) : ℚ :=
  match o with
  | some a => min t a
  | none => t

/-! ### `DynamicResourceControl` (`cloudexp/guest/application/control.py`)

The mutable attributes read and written by `_update_memory` and
`logged_run`, the content of a `MessageTargetAllocation` response, and
the decision function itself.  The `poll_stats` call of the grow branch
performs measurements; its outcome enters the model as the two oracle
arguments `poll_available` (the new `self.available_memory`) and
`poll_stable_time`. -/

/-- `STATS_POLL_TIMEOUT = 0.5`. -/
def STATS_POLL_TIMEOUT : ℚ := 1 / 2

/-- The attributes of `DynamicResourceControl` that the control loop
reads and writes. -/
structure DRCState where
  wait_timeout : ℚ
  decrease_mem_time : ℚ
  memory_diff : Option ℚ
  available_memory : Option ℚ
deriving Repr

/-- The fields of a target-allocation response that `_update_memory`
reads: `target.get('grace-period')` and `target.get('alloc').get('memory')`. -/
structure TargetMsg where
  grace_period : Option ℚ
  alloc_memory : Option ℚ
deriving Repr

/-- The outcome of one `_update_memory` call: the updated attributes, the
returned `(wait_time, target_memory)` pair, and whether a
`MessageUpdateResourceDiff` report thread was spawned. -/
structure UpdateResult where
  state : DRCState
  wait_time : ℚ
  target_memory : Option ℚ
  reported_diff : Bool
deriving Repr

/-- `DynamicResourceControl._update_memory`
(`cloudexp/guest/application/control.py`, lines 140-184). -/
def update_memory (s : DRCState) (target : Option TargetMsg)
    (poll_available poll_stable_time : ℚ) : UpdateResult :=
  match target with
  | none => ⟨s, s.wait_timeout, none, false⟩
  | some t =>
    match t.alloc_memory with
    | none => ⟨s, s.wait_timeout, none, false⟩
    | some alloc =>
      -- First notification should indicate a stable condition
      let is_first : Bool := !(is_valid_mem s.memory_diff) && t.grace_period.isNone
      let s1 := if is_first
        then { s with memory_diff := some (first_diff alloc s.available_memory) }
        else s
      match s1.memory_diff with
      | none => ⟨s1, s.wait_timeout, none, is_first⟩
      | some diff =>
        let memory_alloc := alloc - diff
        if is_memory_close (some memory_alloc) s1.available_memory then
          -- memory_alloc = available ; continue
          ⟨s1, s.wait_timeout, none, is_first⟩
        else if mem_gt memory_alloc s1.available_memory && !t.grace_period.isNone then
          -- memory_alloc > available ; still have grace time
          ⟨s1, t.grace_period.getD 0, none, is_first⟩
        else if mem_gt memory_alloc s1.available_memory then
          -- memory_alloc > available ; no more grace time: poll the stats
          let s2 := { s1 with available_memory := some poll_available }
          let is_ready := is_memory_close (some memory_alloc) (some poll_available)
          if is_ready || decide (poll_stable_time + 1 / 100 > STATS_POLL_TIMEOUT) then
            ⟨{ s2 with memory_diff := some (max 0 (memory_alloc + diff - poll_available)) },
              s.wait_timeout, some memory_alloc, is_first⟩
          else
            ⟨s2, 1 / 10, some memory_alloc, is_first⟩
        else if (match t.grace_period with
                 | some g => decide (g > s.decrease_mem_time)
                 | none => false) then
          -- memory_alloc < available ; still have grace time
          ⟨s1, t.grace_period.getD 0 - s.decrease_mem_time, none, is_first⟩
        else
          -- memory_alloc < available ; no more grace time
          ⟨s1, s.wait_timeout, some memory_alloc, is_first⟩

/-- The clamping that `logged_run` applies to `_update_memory`'s result
before calling `change_mem_func`
(`cloudexp/guest/application/control.py`, lines 209-216). -/
def clamp_target (target_memory : Option ℚ) (available : Option ℚ) : Option ℚ :=
  match target_memory with
  | some t => if 0 < t then some (min_mem t available) else available
  | none => available

/-- One iteration of `DynamicResourceControl.logged_run`
(`cloudexp/guest/application/control.py`, lines 186-226), from the point
where the fresh statistics are stored into `self.available_memory` to the
call of `change_mem_func`.  Returns the `_update_memory` outcome together
with the total-memory argument passed to `change_mem_func`. -/
def logged_run_step (s : DRCState) (stats_available : ℚ) (target : Option TargetMsg)
    (poll_available poll_stable_time : ℚ) : UpdateResult × Option ℚ :=
  let s1 := { s with available_memory := some stats_available }
  let r := update_memory s1 target poll_available poll_stable_time
  (r, clamp_target r.target_memory r.state.available_memory)

/-! ### `HostPolicy` (`mom/host_policy/__init__.py`)

The constructor clamping (lines 49-51), the stages of one `do_controls`
cycle, and the `logged_run` cycle loop.  Wall-clock readings enter the
model through `CycleEnv`; the cycle is rendered as the list of
externally visible stage events it performs, in order. -/

/-- The attributes of `HostPolicy` that `do_controls` reads or writes:
the three clamped configuration values (only read after `__init__`) and
the `policy_data_loggers` cache (the only attribute `do_controls`
mutates). -/
structure HPState where
  interval : ℚ
  grace_period : ℚ
  inquiry_timeout : ℚ
  policy_data_loggers : List String
deriving Repr

/-- `HostPolicy.__init__` (`mom/host_policy/__init__.py`, lines 49-51):
`interval = max(cfg, 1)`, `grace_period = min(cfg, interval)`,
`inquiry_timeout = min(cfg, interval)`. -/
def host_policy_init (cfg_interval cfg_grace_period cfg_inquiry_timeout : ℚ) : HPState :=
  { interval := max cfg_interval 1
    grace_period := min cfg_grace_period (max cfg_interval 1)
    inquiry_timeout := min cfg_inquiry_timeout (max cfg_interval 1)
    policy_data_loggers := [] }

/-- The externally visible actions of one `do_controls` cycle. -/
inductive HPEvent where
  | interrogate_host
  | inquire_guest (guest : String) (grace : ℚ) (timeout : ℚ)
  | apply_policy (ok : Bool)
  | notify_guest (guest : String) (grace : Option ℚ)
  | log_notify (source : String)
  | grace_sleep (duration : ℚ)
  | apply_control (controller : ℕ)
  | log_controls (source : String)
  | store_variables (source : String)
deriving Repr, DecidableEq

/-- The environment of one cycle: termination flag, host snapshot
availability, guest list, whether `Allocator.apply_policy` raises, the
wall-clock elapsed since the inquiry at the notify and at the sleep
point, and the number of configured controllers. -/
structure CycleEnv where
  should_run : Bool
  host : Option String
  guests : List String
  policy_raises : Bool
  elapsed_at_notify : ℚ
  elapsed_at_sleep : ℚ
  n_controllers : ℕ
deriving Repr

/-- `HostPolicy.get_policy_data_logger` (lines 85-91): create the data
logger for a source on first use, cache it afterwards. -/
def get_policy_data_logger (loggers : List String) (source : String) : List String :=
  if source ∈ loggers then loggers else loggers ++ [source]

/-- `HostPolicy.do_controls` (`mom/host_policy/__init__.py`,
lines 133-197): the ordered stage events of one cycle and the state
after it.  An exception in `apply_policy` is caught, logged and ends the
cycle (`return`); an unavailable host snapshot skips the cycle. -/
def do_controls (s : HPState) (env : CycleEnv) : HPState × List HPEvent :=
  if !env.should_run then (s, [])
  else
    match env.host with
    | none => (s, [HPEvent.interrogate_host])
    | some host =>
      let ev_inquire := HPEvent.interrogate_host ::
        env.guests.map (fun g => HPEvent.inquire_guest g s.grace_period s.inquiry_timeout)
      if env.policy_raises then
        (s, ev_inquire ++ [HPEvent.apply_policy false])
      else
        let remaining_grace := max 0 (s.grace_period - env.elapsed_at_notify)
        let ev_notify := env.guests.map
          (fun g => HPEvent.notify_guest g (some remaining_grace))
        let log_sources := host :: env.guests
        let loggers1 := log_sources.foldl get_policy_data_logger s.policy_data_loggers
        let s1 := { s with policy_data_loggers := loggers1 }
        let ev_log1 := log_sources.map HPEvent.log_notify
        let sleep_grace := max 0 (s.grace_period - env.elapsed_at_sleep)
        let ev_ctrl := (List.range env.n_controllers).map HPEvent.apply_control
        let loggers2 := log_sources.foldl get_policy_data_logger s1.policy_data_loggers
        let s2 := { s1 with policy_data_loggers := loggers2 }
        let ev_log2 := log_sources.map HPEvent.log_controls
          ++ log_sources.map HPEvent.store_variables
        let ev_final := env.guests.map (fun g => HPEvent.notify_guest g none)
        (s2, ev_inquire ++ [HPEvent.apply_policy true] ++ ev_notify ++ ev_log1
          ++ [HPEvent.grace_sleep sleep_grace] ++ ev_ctrl ++ ev_log2 ++ ev_final)

/-- `HostPolicy.logged_run` (lines 199-207): run one cycle per
environment, threading the state through. -/
def hp_logged_run (s : HPState) : List CycleEnv → HPState × List (List HPEvent)
  | [] => (s, [])
  | env :: rest =>
    let r := do_controls s env
    let rr := hp_logged_run r.1 rest
    (rr.1, r.2 :: rr.2)

/-! ### Response envelope (`mom/communication/guest_server.py` lines
25-40, `mom/communication/guest_client.py` lines 60-80) -/

/-- Python truthiness of a value, as used by
`if not response_message.get("ack", False)`. -/
def truthy : Value → Bool
  | Value.bool b => b
  | Value.num q => decide (q ≠ 0)
  | Value.str s => decide (s ≠ "")
  | Value.null => false
  | Value.dict d => !d.isEmpty

/-- `GuestServer.process_message`: build the response envelope for a
processing outcome (`Except.ok` = `message.process` returned, with its
dict; `Except.error` = it raised, with the exception text). -/
def process_message (result : Except String Dict) (process_time : ℚ) : Dict :=
  match result with
  | Except.ok response =>
    dictSet (dictSet (dictSet [] "ack" (Value.bool true)) "response" (Value.dict response))
      "process-time" (Value.num process_time)
  | Except.error e =>
    dictSet (dictSet (dictSet (dictSet [] "ack" (Value.bool false)) "error" (Value.str e))
      "response" Value.null) "process-time" (Value.num process_time)

/-- The three `MessageError` raise sites of
`GuestClient.send_receive_message`, each carrying what the error message
interpolates. -/
inductive MessageFailure where
  | response_not_dict (got : Value)
  | not_acknowledged (err : Value)
  | data_not_dict (got : Value)
deriving Repr

/-- `GuestClient.send_receive_message` after the transport returned
`response_message`: envelope must be a dict, `ack` must be truthy, and
the `response` field must be a dict, which is returned. -/
def send_receive_message (response_message : Value) : Except MessageFailure Dict :=
  match response_message with
  | Value.dict env =>
    if !truthy ((dictGet env "ack").getD (Value.bool false)) then
      Except.error (MessageFailure.not_acknowledged
        ((dictGet env "error").getD (Value.str "<no error message>")))
    else
      match (dictGet env "response").getD Value.null with
      | Value.dict d => Except.ok d
      | v => Except.error (MessageFailure.data_not_dict v)
  | v => Except.error (MessageFailure.response_not_dict v)

/-! ### `MessageNotify.process` (`mom/communication/messages.py`,
lines 78-89) -/

/-- `MessageNotify.process(data, ...)`: `notify = data.setdefault('notify', dict())`,
shallow `notify.update(content)`, then `notify['update-time'] = time.time()`.
Returns `none` when the existing `notify` entry is not a dict (the Python
code would raise there). -/
def notify_process (data : Dict) (content : Dict) (now : ℚ) : Option Dict :=
  match dictGet data "notify" with
  | none =>
    let nd := dictSet (dictUpdateShallow [] content) "update-time" (Value.num now)
    some (dictSet data "notify" (Value.dict nd))
  | some (Value.dict nd0) =>
    let nd := dictSet (dictUpdateShallow nd0 content) "update-time" (Value.num now)
    some (dictSet data "notify" (Value.dict nd))
  | some _ => none

/-- The content of a `MessageNotify` sent by `HostPolicy.notify_guest`
(`mom/host_policy/__init__.py`, line 98). -/
def notify_content (alloc : Value) (grace : Value) : Dict :=
  [("alloc", alloc), ("grace-period", grace)]

/-! ## Theorems -/

/-- C4: `Monitor.collect()` merges the collector outputs with
`dict_recursive_update`, left to right in configuration order.  Per key
a later collector overrides an earlier one, except that two nested
dictionaries are merged recursively rather than replaced; in particular
the two synthetic single-collector records of the spec merge into the
combined nested record. -/
theorem collect_merge_precedence :
    (∀ (source input_dict : Dict) (k : String), (dictKeys input_dict).Nodup →
      dictGet (dict_recursive_update source input_dict) k
        = match dictGet input_dict k with
          | some v => some (merge_value (dictGet source k) v)
          | none => dictGet source k)
    ∧ collect_merged
        [[("a", Value.dict [("x", Value.num 1)])], [("a", Value.dict [("y", Value.num 2)])]]
        = [("a", Value.dict [("x", Value.num 1), ("y", Value.num 2)])] := by
  constructor
  · intro source input_dict k h
    exact dictGet_recursive_update input_dict source k h
  · simp [collect_merged, dict_recursive_update_cons, dict_recursive_update_nil,
      merge_value, dictGet, dictSet]

/-- Witness for C4 at a concrete input. -/
theorem collect_merge_precedence_witness :
    dictGet (dict_recursive_update [("a", Value.num 3)] [("b", Value.num 4)]) "a"
      = some (Value.num 3) := by
  have h := collect_merge_precedence.1 [("a", Value.num 3)] [("b", Value.num 4)] "a"
    (by simp [dictKeys])
  simpa [dictGet] using h

/-- C5: after any sequence of `collect()` calls starting from an empty
deque, the statistics deque holds exactly the most recent records in
order — the suffix of the collected records of length
`min N sample-history-length` — so once `N` exceeds the history length
its length is exactly the history length, with FIFO eviction of the
oldest, and for `N` at most the limit it holds all `N` records. -/
theorem collect_history_bound {α : Type} (hist_len : ℕ) (records : List α) :
    collect_history hist_len records = records.drop (records.length - hist_len)
    ∧ (collect_history hist_len records).length = min records.length hist_len := by
  have h := collect_history_aux hist_len records [] (by simp)
  rw [List.nil_append] at h
  simp only [List.length_nil, Nat.zero_add] at h
  have h2 : collect_history hist_len records = records.drop (records.length - hist_len) := h
  refine ⟨h2, ?_⟩
  rw [h2, List.length_drop]
  omega

theorem send_receive_dict (env : Dict) :
    send_receive_message (Value.dict env)
      = if truthy ((dictGet env "ack").getD (Value.bool false)) then
          (match (dictGet env "response").getD Value.null with
           | Value.dict d => Except.ok d
           | v => Except.error (MessageFailure.data_not_dict v))
        else
          Except.error (MessageFailure.not_acknowledged
            ((dictGet env "error").getD (Value.str "<no error message>"))) := by
  cases htr : truthy ((dictGet env "ack").getD (Value.bool false)) <;>
    simp [send_receive_message, htr]

/-- C8: the `GuestServer.process_message` envelope always carries
`ack` (a bool), `response` (a dict on success, null on failure) and
`process-time`, and carries `error` exactly when processing raised;
`GuestClient.send_receive_message` returns the response dict exactly
when the envelope is a dict whose `ack` is truthy and whose `response`
is a dict, and otherwise raises a `MessageError` — for a nacked
envelope one carrying the envelope's error text. -/
theorem response_envelope_contract :
    (∀ (r : Dict) (pt : ℚ),
        dictGet (process_message (Except.ok r) pt) "ack" = some (Value.bool true)
      ∧ dictGet (process_message (Except.ok r) pt) "response" = some (Value.dict r)
      ∧ dictGet (process_message (Except.ok r) pt) "process-time" = some (Value.num pt)
      ∧ dictGet (process_message (Except.ok r) pt) "error" = none
      ∧ send_receive_message (Value.dict (process_message (Except.ok r) pt)) = Except.ok r)
    ∧ (∀ (e : String) (pt : ℚ),
        dictGet (process_message (Except.error e) pt) "ack" = some (Value.bool false)
      ∧ dictGet (process_message (Except.error e) pt) "response" = some Value.null
      ∧ dictGet (process_message (Except.error e) pt) "process-time" = some (Value.num pt)
      ∧ dictGet (process_message (Except.error e) pt) "error" = some (Value.str e)
      ∧ send_receive_message (Value.dict (process_message (Except.error e) pt))
          = Except.error (MessageFailure.not_acknowledged (Value.str e)))
    ∧ (∀ (v : Value) (d : Dict),
        send_receive_message v = Except.ok d
          ↔ ∃ env, v = Value.dict env
              ∧ truthy ((dictGet env "ack").getD (Value.bool false)) = true
              ∧ (dictGet env "response").getD Value.null = Value.dict d) := by
  refine ⟨?_, ?_, ?_⟩
  · intro r pt
    refine ⟨?_, ?_, ?_, ?_, ?_⟩ <;>
      simp [process_message, dictSet, dictGet, send_receive_dict, truthy]
  · intro e pt
    refine ⟨?_, ?_, ?_, ?_, ?_⟩ <;>
      simp [process_message, dictSet, dictGet, send_receive_dict, truthy]
  · intro v d
    cases v with
    | dict env =>
      rw [send_receive_dict]
      cases htr : truthy ((dictGet env "ack").getD (Value.bool false))
      · simp [htr]
      · cases hresp : (dictGet env "response").getD Value.null <;> simp [htr, hresp]
    | bool b => simp [send_receive_message]
    | num q => simp [send_receive_message]
    | str s => simp [send_receive_message]
    | null => simp [send_receive_message]

/-- Witness for C8 at a concrete envelope. -/
theorem response_envelope_contract_witness :
    send_receive_message
        (Value.dict (process_message (Except.ok [("x", Value.num 7)]) (3 / 2)))
      = Except.ok [("x", Value.num 7)] :=
  (response_envelope_contract.1 [("x", Value.num 7)] (3 / 2)).2.2.2.2

/-- Lookup inside the stored notify state of the guest server's
connection data. -/
def dict_notify_get (d : Dict) (k : String) : Option Value :=
  match dictGet d "notify" with
  | some (Value.dict nd) => dictGet nd k
  | _ => none

/-- The three writes `MessageNotify.process` applies to the notify
state: `alloc`, `grace-period`, then the `update-time` timestamp. -/
def notify_update (nd : Dict) (alloc gv : Value) (t : ℚ) : Dict :=
  dictSet (dictSet (dictSet nd "alloc" alloc) "grace-period" gv) "update-time" (Value.num t)

theorem notify_process_eq (d : Dict) (a gv : Value) (t : ℚ) :
    notify_process d (notify_content a gv) t
      = match dictGet d "notify" with
        | none => some (dictSet d "notify" (Value.dict (notify_update [] a gv t)))
        | some (Value.dict nd0) =>
          some (dictSet d "notify" (Value.dict (notify_update nd0 a gv t)))
        | some _ => none := by
  cases h : dictGet d "notify" with
  | none => simp [notify_process, h, notify_content, notify_update, dictUpdateShallow]
  | some v =>
    cases v <;> simp [notify_process, h, notify_content, notify_update, dictUpdateShallow]

theorem dictGet_notify_update_alloc (nd : Dict) (a gv : Value) (t : ℚ) :
    dictGet (notify_update nd a gv t) "alloc" = some a := by
  unfold notify_update
  rw [dictGet_set_ne _ _ _ _ (by decide), dictGet_set_ne _ _ _ _ (by decide),
    dictGet_set_self]

theorem dictGet_notify_update_grace (nd : Dict) (a gv : Value) (t : ℚ) :
    dictGet (notify_update nd a gv t) "grace-period" = some gv := by
  unfold notify_update
  rw [dictGet_set_ne _ _ _ _ (by decide), dictGet_set_self]

theorem dictGet_notify_update_other (nd : Dict) (a gv : Value) (t : ℚ) (k : String)
    (h1 : k ≠ "alloc") (h2 : k ≠ "grace-period") (h3 : k ≠ "update-time") :
    dictGet (notify_update nd a gv t) k = dictGet nd k := by
  unfold notify_update
  rw [dictGet_set_ne _ _ _ _ (Ne.symm h3), dictGet_set_ne _ _ _ _ (Ne.symm h2),
    dictGet_set_ne _ _ _ _ (Ne.symm h1)]

theorem notify_process_of_get (d nd1 : Dict) (a gv : Value) (t : ℚ)
    (h : dictGet d "notify" = some (Value.dict nd1)) :
    notify_process d (notify_content a gv) t
      = some (dictSet d "notify" (Value.dict (notify_update nd1 a gv t))) := by
  rw [notify_process_eq, h]

theorem dict_notify_get_of (d nd : Dict) (k : String)
    (h : dictGet d "notify" = some (Value.dict nd)) :
    dict_notify_get d k = dictGet nd k := by
  unfold dict_notify_get
  rw [h]

theorem notify_update_twice (nd : Dict) (a gv : Value) (t1 t2 : ℚ) :
    notify_update (notify_update nd a gv t1) a gv t2 = notify_update nd a gv t2 := by
  have halloc := dictGet_notify_update_alloc nd a gv t1
  have hgrace := dictGet_notify_update_grace nd a gv t1
  show dictSet (dictSet (dictSet (notify_update nd a gv t1) "alloc" a) "grace-period" gv)
      "update-time" (Value.num t2) = notify_update nd a gv t2
  rw [dictSet_get_same _ _ _ halloc, dictSet_get_same _ _ _ hgrace]
  unfold notify_update
  rw [dictSet_set_same]

/-- C9: after a provisional Notify stored `alloc`, processing the final
Notify (grace `None`) with the same `alloc` only rewrites the
`grace-period` field and the `update-time` timestamp: the stored alloc
and every other key of the notify state and of the connection data are
unchanged, and re-processing the identical content is idempotent on the
state up to the timestamp. -/
theorem notify_idempotent (d0 : Dict) (alloc : Value) (g t1 t2 t3 : ℚ) (d1 : Dict)
    (h1 : notify_process d0 (notify_content alloc (Value.num g)) t1 = some d1) :
    ∃ d2, notify_process d1 (notify_content alloc Value.null) t2 = some d2
      ∧ dict_notify_get d1 "alloc" = some alloc
      ∧ dict_notify_get d2 "alloc" = some alloc
      ∧ dict_notify_get d2 "grace-period" = some Value.null
      ∧ (∀ k, k ≠ "grace-period" → k ≠ "update-time" →
          dict_notify_get d2 k = dict_notify_get d1 k)
      ∧ (∀ k, k ≠ "notify" → dictGet d2 k = dictGet d1 k)
      ∧ notify_process d2 (notify_content alloc Value.null) t3
          = notify_process d1 (notify_content alloc Value.null) t3 := by
  rw [notify_process_eq] at h1
  have key : ∃ nd, d1 = dictSet d0 "notify"
      (Value.dict (notify_update nd alloc (Value.num g) t1)) := by
    cases hd0 : dictGet d0 "notify" with
    | none =>
      rw [hd0] at h1
      simp only [Option.some.injEq] at h1
      exact ⟨[], h1.symm⟩
    | some v =>
      cases v <;> rw [hd0] at h1 <;> simp only [Option.some.injEq,
        reduceCtorEq] at h1
      exact ⟨_, h1.symm⟩
  obtain ⟨nd, hd1⟩ := key
  subst hd1
  have hget1 : dictGet (dictSet d0 "notify"
      (Value.dict (notify_update nd alloc (Value.num g) t1))) "notify"
      = some (Value.dict (notify_update nd alloc (Value.num g) t1)) :=
    dictGet_set_self _ _ _
  have hget2 : dictGet (dictSet (dictSet d0 "notify"
      (Value.dict (notify_update nd alloc (Value.num g) t1))) "notify"
      (Value.dict (notify_update (notify_update nd alloc (Value.num g) t1)
        alloc Value.null t2))) "notify"
      = some (Value.dict (notify_update (notify_update nd alloc (Value.num g) t1)
        alloc Value.null t2)) :=
    dictGet_set_self _ _ _
  refine ⟨dictSet (dictSet d0 "notify"
      (Value.dict (notify_update nd alloc (Value.num g) t1))) "notify"
      (Value.dict (notify_update (notify_update nd alloc (Value.num g) t1)
        alloc Value.null t2)), ?_, ?_, ?_, ?_, ?_, ?_, ?_⟩
  · exact notify_process_of_get _ _ _ _ _ hget1
  · rw [dict_notify_get_of _ _ _ hget1, dictGet_notify_update_alloc]
  · rw [dict_notify_get_of _ _ _ hget2, dictGet_notify_update_alloc]
  · rw [dict_notify_get_of _ _ _ hget2, dictGet_notify_update_grace]
  · intro k h2 h3
    rw [dict_notify_get_of _ _ _ hget2, dict_notify_get_of _ _ _ hget1]
    by_cases hk : k = "alloc"
    · subst hk
      rw [dictGet_notify_update_alloc, dictGet_notify_update_alloc]
    · exact dictGet_notify_update_other _ _ _ _ _ hk h2 h3
  · intro k hk
    rw [dictGet_set_ne _ _ _ _ (Ne.symm hk)]
  · rw [notify_process_of_get _ _ _ _ _ hget2, notify_process_of_get _ _ _ _ _ hget1,
      notify_update_twice, dictSet_set_same]

/-- Witness for C9 at a concrete provisional/final Notify pair. -/
theorem notify_idempotent_witness :
    ∃ d2, notify_process
        [("notify", Value.dict [("alloc", Value.num 512), ("grace-period", Value.num 1),
           ("update-time", Value.num 10)])]
        (notify_content (Value.num 512) Value.null) 11 = some d2
      ∧ dict_notify_get d2 "alloc" = some (Value.num 512) := by
  obtain ⟨d2, ha, _, hb, _⟩ := notify_idempotent [] (Value.num 512) 1 10 11 12
    [("notify", Value.dict [("alloc", Value.num 512), ("grace-period", Value.num 1),
      ("update-time", Value.num 10)])] rfl
  exact ⟨d2, ha, hb⟩

/-- `_update_memory` with a valid measurement diff and an allocation
below the available memory beyond the closeness tolerance: only the two
shrink branches remain. -/
theorem update_memory_below (s : DRCState) (gp : Option ℚ) (alloc diff a pa pt : ℚ)
    (hdiff : s.memory_diff = some diff)
    (havail : s.available_memory = some a)
    (hbelow : alloc - diff + 1 ≤ a) :
    update_memory s (some ⟨gp, some alloc⟩) pa pt
      = if (match gp with
            | some g => decide (g > s.decrease_mem_time)
            | none => false) then
          ⟨s, gp.getD 0 - s.decrease_mem_time, none, false⟩
        else ⟨s, s.wait_timeout, some (alloc - diff), false⟩ := by
  have hna : ¬(alloc - diff + 1 > a) := by linarith
  have h1 : is_memory_close (some (alloc - diff)) (some a) = false := by
    simp [is_memory_close, hna]
  have h2 : mem_gt (alloc - diff) (some a) = false := by
    simp [mem_gt]
    linarith
  simp [update_memory, hdiff, havail, is_valid_mem, h1, h2]

/-- C2 (amended): for `_update_memory` with a valid measurement diff,
whenever `adjusted = requested_alloc - diff` is below available memory
beyond the closeness tolerance: if the remaining grace exceeds
`decrease_mem_time` the returned target is `None` (no shrink yet), and
if the grace period is `None` or at most `decrease_mem_time` the
returned target equals `min(adjusted, available)`. -/
theorem shrink_safety_margin (s : DRCState) (gp : Option ℚ) (g alloc diff a pa pt : ℚ)
    (hdiff : s.memory_diff = some diff)
    (havail : s.available_memory = some a)
    (hbelow : alloc - diff + 1 ≤ a) :
    (gp = some g → s.decrease_mem_time < g →
      (update_memory s (some ⟨gp, some alloc⟩) pa pt).target_memory = none)
    ∧ (gp = none ∨ (gp = some g ∧ g ≤ s.decrease_mem_time) →
      (update_memory s (some ⟨gp, some alloc⟩) pa pt).target_memory
        = some (min (alloc - diff) a)) := by
  rw [update_memory_below s gp alloc diff a pa pt hdiff havail hbelow]
  have hmin : min (alloc - diff) a = alloc - diff := min_eq_left (by linarith)
  constructor
  · intro hgp hg
    subst hgp
    simp [hg]
  · intro hgp
    rcases hgp with hgp | ⟨hgp, hg⟩
    · subst hgp
      simp [hmin]
    · subst hgp
      simp [hmin, not_lt.mpr hg]

/-- Witness for the amended C2 at concrete inputs: remaining grace 3
exceeds `decrease_mem_time = 1`, so no shrink target yet. -/
theorem shrink_safety_margin_witness :
    (update_memory ⟨5, 1, some 0, some 100⟩ (some ⟨some 3, some 90⟩) 0 0).target_memory
      = none :=
  (shrink_safety_margin ⟨5, 1, some 0, some 100⟩ (some 3) 3 90 0 100 0 0 rfl rfl
    (by norm_num)).1 rfl (by norm_num)

/-- Counterexample to C2 as stated: with `diff = 0`, `available = 100`
and `requested_alloc = 99.5` the adjusted allocation is below the
available memory and the grace period is `None`, yet `_update_memory`
returns no target (the closeness branch fires first), not
`min(adjusted, available)`. -/
theorem shrink_claim_counterexample :
    ((199 : ℚ) / 2 - 0 < 100)
    ∧ (update_memory ⟨5, 1, some 0, some 100⟩ (some ⟨none, some (199 / 2)⟩) 0 0).target_memory
        = none
    ∧ (update_memory ⟨5, 1, some 0, some 100⟩ (some ⟨none, some (199 / 2)⟩) 0 0).target_memory
        ≠ some (min ((199 : ℚ) / 2 - 0) 100) := by
  have hc : is_memory_close (some ((199 : ℚ) / 2)) (some 100) = true := by
    simp [is_memory_close]
    norm_num
  have h : (update_memory ⟨5, 1, some 0, some 100⟩
      (some ⟨none, some (199 / 2)⟩) 0 0).target_memory = none := by
    simp [update_memory, is_valid_mem, hc]
  refine ⟨by norm_num, h, by rw [h]; simp⟩

/-- First target-bearing response with no grace period while the diff is
invalid, when the requested allocation is within the tolerance of (or
above) the available memory: the diff is recorded and reported and no
target is returned. -/
theorem update_memory_first_close (s : DRCState) (alloc a pa pt : ℚ)
    (hdiff : s.memory_diff = none)
    (havail : s.available_memory = some a)
    (hclose : is_memory_close (some (alloc - max 0 (alloc - a))) (some a) = true) :
    update_memory s (some ⟨none, some alloc⟩) pa pt
      = ⟨{ s with memory_diff := some (max 0 (alloc - a)) }, s.wait_timeout, none, true⟩ := by
  simp [update_memory, hdiff, havail, is_valid_mem, first_diff, hclose]

/-- First target-bearing response with no grace period while the diff is
invalid, when the requested allocation is below the available memory
beyond the tolerance: the diff is recorded as `0` and the shrink target
is returned at once. -/
theorem update_memory_first_below (s : DRCState) (alloc a pa pt : ℚ)
    (hdiff : s.memory_diff = none)
    (havail : s.available_memory = some a)
    (hbelow : alloc + 1 ≤ a) :
    update_memory s (some ⟨none, some alloc⟩) pa pt
      = ⟨{ s with memory_diff := some 0 }, s.wait_timeout, some alloc, true⟩ := by
  have hmax : max 0 (alloc - a) = 0 := max_eq_left (by linarith)
  have hna : ¬(alloc + 1 > a) := by linarith
  have hnc : is_memory_close (some alloc) (some a) = false := by
    simp [is_memory_close, hna]
  have hgt : mem_gt alloc (some a) = false := by
    simp [mem_gt]
    linarith
  simp [update_memory, hdiff, havail, is_valid_mem, first_diff, hmax, hnc, hgt]

/-- C3 (amended): on the first target-bearing response with no grace
period while the measurement diff is invalid, `_update_memory` sets the
persistent diff to `max(0, requested_alloc - available)` and spawns the
asynchronous `MessageUpdateResourceDiff` report; it makes no immediate
change (full `wait_timeout`, no target) when the requested allocation is
within the closeness tolerance of, or above, the available memory, but
when the requested allocation is below the available memory beyond the
tolerance it immediately returns the shrink target `requested_alloc`. -/
theorem first_notification_diff (s : DRCState) (alloc a pa pt : ℚ)
    (hdiff : s.memory_diff = none)
    (havail : s.available_memory = some a) :
    (update_memory s (some ⟨none, some alloc⟩) pa pt).state.memory_diff
        = some (max 0 (alloc - a))
    ∧ (update_memory s (some ⟨none, some alloc⟩) pa pt).reported_diff = true
    ∧ (a < alloc + 1 →
        (update_memory s (some ⟨none, some alloc⟩) pa pt).target_memory = none
        ∧ (update_memory s (some ⟨none, some alloc⟩) pa pt).wait_time = s.wait_timeout)
    ∧ (alloc + 1 ≤ a →
        (update_memory s (some ⟨none, some alloc⟩) pa pt).target_memory = some alloc
        ∧ (update_memory s (some ⟨none, some alloc⟩) pa pt).wait_time = s.wait_timeout) := by
  rcases lt_or_le a (alloc + 1) with hcase | hcase
  · have hclose : is_memory_close (some (alloc - max 0 (alloc - a))) (some a) = true := by
      rcases le_total alloc a with hle | hle
      · rw [max_eq_left (by linarith)]
        simp [is_memory_close]
        constructor <;> linarith
      · rw [max_eq_right (by linarith)]
        simp [is_memory_close]
    rw [update_memory_first_close s alloc a pa pt hdiff havail hclose]
    refine ⟨rfl, rfl, fun _ => ⟨rfl, rfl⟩, fun h => absurd h (by linarith)⟩
  · rw [update_memory_first_below s alloc a pa pt hdiff havail hcase]
    have hmax : max 0 (alloc - a) = 0 := max_eq_left (by linarith)
    exact ⟨by rw [hmax], rfl, fun h => absurd h (by linarith), fun _ => ⟨rfl, rfl⟩⟩

/-- Witness for the amended C3 at concrete inputs: requested 120,
available 100, so the recorded diff is 20 and no target is returned. -/
theorem first_notification_diff_witness :
    (update_memory ⟨5, 1, none, some 100⟩ (some ⟨none, some 120⟩) 0 0).state.memory_diff
        = some (max 0 (120 - 100 : ℚ))
    ∧ (update_memory ⟨5, 1, none, some 100⟩ (some ⟨none, some 120⟩) 0 0).reported_diff
        = true
    ∧ (update_memory ⟨5, 1, none, some 100⟩ (some ⟨none, some 120⟩) 0 0).target_memory
        = none := by
  have h := first_notification_diff ⟨5, 1, none, some 100⟩ 120 100 0 0 rfl rfl
  exact ⟨h.1, h.2.1, (h.2.2.1 (by norm_num)).1⟩

/-- Counterexample to C3 as stated: requested 50 with available 100 (no
grace period, invalid diff) records and reports diff 0 but also
immediately returns the shrink target 50, instead of making no change
for that iteration. -/
theorem first_notification_counterexample :
    (update_memory ⟨5, 1, none, some 100⟩ (some ⟨none, some 50⟩) 0 0).reported_diff = true
    ∧ (update_memory ⟨5, 1, none, some 100⟩ (some ⟨none, some 50⟩) 0 0).target_memory
        = some 50
    ∧ (update_memory ⟨5, 1, none, some 100⟩ (some ⟨none, some 50⟩) 0 0).target_memory
        ≠ none := by
  have h := update_memory_first_below ⟨5, 1, none, some 100⟩ 50 100 0 0 rfl rfl
    (by norm_num)
  rw [h]
  exact ⟨rfl, rfl, by simp⟩

/-- `_update_memory` leaves `self.available_memory` either unchanged or
set to the freshly polled value. -/
theorem update_memory_available (s : DRCState) (target : Option TargetMsg)
    (pa pt a0 : ℚ) (h : s.available_memory = some a0) :
    (update_memory s target pa pt).state.available_memory = some a0
    ∨ (update_memory s target pa pt).state.available_memory = some pa := by
  cases target with
  | none => left; simp [update_memory, h]
  | some t =>
    obtain ⟨gp, am⟩ := t
    cases am with
    | none => left; simp [update_memory, h]
    | some alloc =>
      simp only [update_memory]
      repeat' split
      all_goals simp [h]

/-- C1: in every iteration of `DynamicResourceControl.logged_run`, the
total-memory argument passed to `change_mem_func` never exceeds the last
observed available memory: a positive `_update_memory` target is
replaced by `min(target, available_memory)`, and a `None` or
non-positive target by `available_memory` itself. -/
theorem change_mem_input_le_available (s : DRCState) (stats_available : ℚ)
    (target : Option TargetMsg) (pa pt : ℚ) (r : UpdateResult) (applied : Option ℚ)
    (h : logged_run_step s stats_available target pa pt = (r, applied)) :
    ∃ a, r.state.available_memory = some a
      ∧ (∃ t, applied = some t ∧ t ≤ a)
      ∧ (∀ tm, r.target_memory = some tm → 0 < tm → applied = some (min tm a))
      ∧ (r.target_memory = none → applied = some a)
      ∧ (∀ tm, r.target_memory = some tm → tm ≤ 0 → applied = some a) := by
  simp only [logged_run_step, Prod.mk.injEq] at h
  obtain ⟨h1, h2⟩ := h
  obtain ⟨a, ha⟩ : ∃ a, r.state.available_memory = some a := by
    rcases update_memory_available { s with available_memory := some stats_available }
        target pa pt stats_available rfl with hA | hA
    · exact ⟨stats_available, by rw [← h1]; exact hA⟩
    · exact ⟨pa, by rw [← h1]; exact hA⟩
  have happ : applied = clamp_target r.target_memory r.state.available_memory := by
    rw [← h2, h1]
  refine ⟨a, ha, ?_, ?_, ?_, ?_⟩
  · cases htm : r.target_memory with
    | none =>
      refine ⟨a, ?_, le_refl a⟩
      rw [happ, htm, ha]
      simp [clamp_target]
    | some t =>
      by_cases h0 : 0 < t
      · refine ⟨min t a, ?_, min_le_right t a⟩
        rw [happ, htm, ha]
        simp [clamp_target, min_mem, h0]
      · refine ⟨a, ?_, le_refl a⟩
        rw [happ, htm, ha]
        simp [clamp_target, h0]
  · intro tm htm h0
    rw [happ, htm, ha]
    simp [clamp_target, min_mem, h0]
  · intro htm
    rw [happ, htm, ha]
    simp [clamp_target]
  · intro tm htm h0
    rw [happ, htm, ha]
    simp [clamp_target, not_lt.mpr h0]

/-- Witness for C1 at a concrete iteration. -/
theorem change_mem_input_le_available_witness :
    ∃ a, (logged_run_step ⟨5, 1, some 0, some 100⟩ 100
        (some ⟨none, some 90⟩) 0 0).1.state.available_memory = some a
      ∧ ∃ t, (logged_run_step ⟨5, 1, some 0, some 100⟩ 100
          (some ⟨none, some 90⟩) 0 0).2 = some t ∧ t ≤ a := by
  obtain ⟨a, ha, ht, _⟩ := change_mem_input_le_available ⟨5, 1, some 0, some 100⟩ 100
    (some ⟨none, some 90⟩) 0 0
    (logged_run_step ⟨5, 1, some 0, some 100⟩ 100 (some ⟨none, some 90⟩) 0 0).1
    (logged_run_step ⟨5, 1, some 0, some 100⟩ 100 (some ⟨none, some 90⟩) 0 0).2 rfl
  exact ⟨a, ha, ht⟩

/-- C6: every provisional Notify sent during a `do_controls` cycle
carries the grace period `max(0, configured_grace - elapsed_since_inquiry)`,
which is never negative. -/
theorem notify_grace_clamped (s : HPState) (env : CycleEnv) (g : String) (gr : ℚ)
    (h : HPEvent.notify_guest g (some gr) ∈ (do_controls s env).2) :
    gr = max 0 (s.grace_period - env.elapsed_at_notify) ∧ 0 ≤ gr := by
  obtain ⟨run, hostO, guests, praises, en, es, nc⟩ := env
  cases run
  · simp [do_controls] at h
  · cases hostO with
    | none => simp [do_controls] at h
    | some host =>
      cases praises
      · simp [do_controls] at h
        obtain ⟨a, _, rfl, hgr⟩ := h
        exact ⟨hgr.symm, hgr ▸ le_max_left 0 _⟩
      · simp [do_controls] at h

/-- Witness for C6 at a concrete cycle. -/
theorem notify_grace_clamped_witness :
    (1 : ℚ) = max 0 ((HPState.mk 3 2 1 []).grace_period
        - (CycleEnv.mk true (some "host") ["g1"] false 1 2 1).elapsed_at_notify)
    ∧ (0 : ℚ) ≤ 1 :=
  notify_grace_clamped (HPState.mk 3 2 1 [])
    (CycleEnv.mk true (some "host") ["g1"] false 1 2 1) "g1" 1
    (by norm_num [do_controls, max_eq_right])

/-- C7: if `Allocator.apply_policy` raises, `do_controls` performs none
of that cycle's remaining stages — no notify, no grace sleep, no
controller application, no variable store-back — and leaves the state
untouched, while the main loop continues and runs the next cycle
exactly as it would have without the failure. -/
theorem policy_exception_aborts (s : HPState) (env : CycleEnv) (host : String)
    (hrun : env.should_run = true) (hhost : env.host = some host)
    (hraise : env.policy_raises = true) :
    (do_controls s env).2
        = HPEvent.interrogate_host ::
            env.guests.map (fun g => HPEvent.inquire_guest g s.grace_period s.inquiry_timeout)
          ++ [HPEvent.apply_policy false]
    ∧ (do_controls s env).1 = s
    ∧ (∀ g gr, HPEvent.notify_guest g gr ∉ (do_controls s env).2)
    ∧ (∀ d, HPEvent.grace_sleep d ∉ (do_controls s env).2)
    ∧ (∀ i, HPEvent.apply_control i ∉ (do_controls s env).2)
    ∧ (∀ src, HPEvent.store_variables src ∉ (do_controls s env).2)
    ∧ (∀ envs, hp_logged_run s (env :: envs)
        = ((hp_logged_run s envs).1, (do_controls s env).2 :: (hp_logged_run s envs).2)) := by
  have hdo : do_controls s env = (s, HPEvent.interrogate_host ::
      env.guests.map (fun g => HPEvent.inquire_guest g s.grace_period s.inquiry_timeout)
      ++ [HPEvent.apply_policy false]) := by
    simp [do_controls, hrun, hhost, hraise]
  refine ⟨by rw [hdo], by rw [hdo], ?_, ?_, ?_, ?_, ?_⟩
  · intro g gr
    rw [hdo]
    simp
  · intro d
    rw [hdo]
    simp
  · intro i
    rw [hdo]
    simp
  · intro src
    rw [hdo]
    simp
  · intro envs
    simp [hp_logged_run, hdo]

/-- Witness for C7 at a concrete failing cycle. -/
theorem policy_exception_aborts_witness :
    (do_controls (HPState.mk 3 2 1 []) (CycleEnv.mk true (some "host") ["g1"] true 1 2 1)).2
      = HPEvent.interrogate_host ::
          (["g1"].map (fun g => HPEvent.inquire_guest g (HPState.mk 3 2 1 []).grace_period
            (HPState.mk 3 2 1 []).inquiry_timeout))
        ++ [HPEvent.apply_policy false] :=
  (policy_exception_aborts (HPState.mk 3 2 1 [])
    (CycleEnv.mk true (some "host") ["g1"] true 1 2 1) "host" rfl rfl rfl).1

/-- C10: the `HostPolicy` constructor clamps the configured values —
the interval to at least 1 second, the grace period and the inquiry
timeout to at most the interval — instead of using or rejecting
out-of-bounds values, and no cycle ever modifies them. -/
theorem host_policy_clamping (ci cg cq : ℚ) :
    1 ≤ (host_policy_init ci cg cq).interval
    ∧ (host_policy_init ci cg cq).grace_period ≤ (host_policy_init ci cg cq).interval
    ∧ (host_policy_init ci cg cq).inquiry_timeout ≤ (host_policy_init ci cg cq).interval
    ∧ (ci < 1 → (host_policy_init ci cg cq).interval = 1)
    ∧ (1 ≤ ci → (host_policy_init ci cg cq).interval = ci)
    ∧ ((host_policy_init ci cg cq).interval < cg →
        (host_policy_init ci cg cq).grace_period = (host_policy_init ci cg cq).interval)
    ∧ (cg ≤ (host_policy_init ci cg cq).interval →
        (host_policy_init ci cg cq).grace_period = cg)
    ∧ ((host_policy_init ci cg cq).interval < cq →
        (host_policy_init ci cg cq).inquiry_timeout = (host_policy_init ci cg cq).interval)
    ∧ (cq ≤ (host_policy_init ci cg cq).interval →
        (host_policy_init ci cg cq).inquiry_timeout = cq)
    ∧ (∀ (st : HPState) (env : CycleEnv),
        (do_controls st env).1.interval = st.interval
        ∧ (do_controls st env).1.grace_period = st.grace_period
        ∧ (do_controls st env).1.inquiry_timeout = st.inquiry_timeout)
    ∧ (∀ (st : HPState) (envs : List CycleEnv),
        (hp_logged_run st envs).1.interval = st.interval
        ∧ (hp_logged_run st envs).1.grace_period = st.grace_period
        ∧ (hp_logged_run st envs).1.inquiry_timeout = st.inquiry_timeout) := by
  have hpres : ∀ (st : HPState) (env : CycleEnv),
      (do_controls st env).1.interval = st.interval
      ∧ (do_controls st env).1.grace_period = st.grace_period
      ∧ (do_controls st env).1.inquiry_timeout = st.inquiry_timeout := by
    intro st env
    obtain ⟨run, hostO, guests, praises, en, es, nc⟩ := env
    cases run
    · simp [do_controls]
    · cases hostO with
      | none => simp [do_controls]
      | some host => cases praises <;> simp [do_controls]
  have hloop : ∀ (st : HPState) (envs : List CycleEnv),
      (hp_logged_run st envs).1.interval = st.interval
      ∧ (hp_logged_run st envs).1.grace_period = st.grace_period
      ∧ (hp_logged_run st envs).1.inquiry_timeout = st.inquiry_timeout := by
    intro st envs
    induction envs generalizing st with
    | nil => simp [hp_logged_run]
    | cons e rest ih =>
      simp only [hp_logged_run]
      obtain ⟨h1, h2, h3⟩ := ih (do_controls st e).1
      obtain ⟨g1, g2, g3⟩ := hpres st e
      exact ⟨h1.trans g1, h2.trans g2, h3.trans g3⟩
  refine ⟨?_, ?_, ?_, ?_, ?_, ?_, ?_, ?_, ?_, hpres, hloop⟩
  · show (1 : ℚ) ≤ max ci 1
    exact le_max_right ci 1
  · show min cg (max ci 1) ≤ max ci 1
    exact min_le_right cg (max ci 1)
  · show min cq (max ci 1) ≤ max ci 1
    exact min_le_right cq (max ci 1)
  · intro h
    show max ci 1 = 1
    exact max_eq_right (le_of_lt h)
  · intro h
    show max ci 1 = ci
    exact max_eq_left h
  · intro h
    show min cg (max ci 1) = max ci 1
    exact min_eq_right (le_of_lt h)
  · intro h
    show min cg (max ci 1) = cg
    exact min_eq_left h
  · intro h
    show min cq (max ci 1) = max ci 1
    exact min_eq_right (le_of_lt h)
  · intro h
    show min cq (max ci 1) = cq
    exact min_eq_left h

/-- Witness for C10 at concrete out-of-bounds configuration values. -/
theorem host_policy_clamping_witness :
    (host_policy_init (1 / 2) 10 10).interval = 1
    ∧ (host_policy_init (1 / 2) 10 10).grace_period
        = (host_policy_init (1 / 2) 10 10).interval := by
  have h := host_policy_clamping (1 / 2) 10 10
  have hint : (host_policy_init (1 / 2) 10 10).interval = 1 :=
    h.2.2.2.1 (by norm_num)
  refine ⟨hint, h.2.2.2.2.2.1 ?_⟩
  rw [hint]
  norm_num

end MomSpec
